import Mathlib

/-!
Verification development for the TeleVideoConverter repository.

The repository is a small media-retrieval system: a download worker
(`src/downloader/worker.py`, `src/downloader/ytdlp_wrapper.py`,
`src/downloader/database.py`) pulls job descriptors from a queue, runs the
extraction adapter, persists an artifact row plus a `download` audit entry
into a SQLite catalog, and notifies the requesting chat; a cleanup cron
(`src/cleanup/cleanup_cron.py`, `src/cleanup/database.py`) periodically
deletes expired artifacts and evicts oldest-first when storage exceeds a
configured ceiling.

This file gives a shallow embedding of those functions and proves the
spec's claims about them.  Conventions used throughout:

* SQLite tables are embedded as Lean lists of rows, in table order
  (`rowid` ascending, since all inserts append).  `SELECT ... fetchone`
  becomes `List.find?`, `DELETE WHERE` becomes `List.filter`, `INSERT`
  appends, `UPDATE ... WHERE` maps over rows.
* The filesystem is embedded as an association list from paths to file
  sizes (for the cleanup service) or to image files (for the thumbnail
  step); `os.path.exists` becomes `List.lookup _ |>.isSome`,
  `os.path.getsize` becomes `List.lookup` and `os.remove` filters the
  entry out.
* Clock reads (`time.time()`) inside one handler are modelled as a single
  instant passed in as a parameter `now`.
* Python `float` arithmetic (the `0.9` eviction target) is modelled with
  exact rationals `ℚ`; Python `int()` applied to a nonnegative float is
  modelled as natural-number (floor) division.
-/

/-- A row of the `videos` table (schema in `src/downloader/database.py`,
`_create_tables`).  The SQLite `created_at DATETIME DEFAULT
CURRENT_TIMESTAMP` column is modelled as an integer unix timestamp. -/
structure VideoRow where
  id : ℕ
  video_id : String
  telegram_user_id : ℤ
  original_url : String
  title : String
  original_quality : Option String
  downloaded_quality : String
  file_size : ℤ
  processing_time : ℤ
  format : String
  codec : Option String
  source_platform : Option String
  file_path : String
  thumbnail_path : Option String
  download_timestamp : ℤ
  delete_timestamp : ℤ
  created_at : ℤ
  deriving DecidableEq, Repr

/-- A row of the `download_stats` table (append-only audit log). -/
structure StatRow where
  telegram_user_id : ℤ
  video_id : String
  action : String
  timestamp : ℤ
  deriving DecidableEq, Repr

/-- The storage area: an association list from file path to file size in
bytes.  Walking the storage directories sums the sizes; `os.path.exists`
is `lookup.isSome`; `os.remove` deletes the entry. -/
abbrev Fs : Type := List (String × ℕ)

/-- First entry for path `p` in an association list of files. -/
def lookupPath {β : Type} : List (String × β) → String → Option β
  | [], _ => none
  | e :: t, p => if e.1 == p then some e.2 else lookupPath t p

/-- Python's `str.endswith`, expressed over the underlying character
list. -/
def strEndsWith (s sfx : String) : Bool :=
  sfx.data.isSuffixOf s.data

/-- Look up the size of the file at `p`, `none` when absent. -/
def Fs.lookup (fs : Fs) (p : String) : Option ℕ :=
  lookupPath fs p

/-- Delete the file at `p` (models `os.remove`). -/
def Fs.remove (fs : Fs) (p : String) : Fs :=
  List.filter (fun e => !(e.1 == p)) fs

namespace Cleanup

/-- State visible to the cleanup service: the two catalog tables plus the
storage filesystem. -/
structure State where
  videos : List VideoRow
  stats : List StatRow
  fs : Fs
  deriving DecidableEq

/-- `Database.get_expired_videos` (src/cleanup/database.py:14-25):
`SELECT * FROM videos WHERE delete_timestamp <= ?` at the current time. -/
def get_expired_videos (now : ℤ) (videos : List VideoRow) : List VideoRow :=
  videos.filter (fun v => v.delete_timestamp ≤ now)

/-- `Database.get_all_videos_sorted_by_age` (src/cleanup/database.py:27-37):
`SELECT * FROM videos ORDER BY download_timestamp ASC`.  SQLite's sort is
modelled as a stable sort over table (rowid) order, so rows with equal
timestamps keep their table order. -/
def get_all_videos_sorted_by_age (videos : List VideoRow) : List VideoRow :=
  videos.insertionSort (fun a b => a.download_timestamp ≤ b.download_timestamp)

/-- `Database.add_stat` (src/cleanup/database.py:61-67): append one row to
`download_stats`. -/
def add_stat (now : ℤ) (st : State) (user_id : ℤ) (video_id : String)
    (action : String) : State :=
  { st with stats := st.stats ++ [⟨user_id, video_id, action, now⟩] }

/-- `Database.delete_video` (src/cleanup/database.py:39-59): fetch the
row's `telegram_user_id`; if no row matches return `false`; otherwise
delete the row(s) with that `video_id`, append one `delete` stat entry
recording that owner, and return `true`. -/
def delete_video (now : ℤ) (st : State) (video_id : String) : State × Bool :=
  match st.videos.find? (fun r => r.video_id == video_id) with
  | none => (st, false)
  | some row =>
      let st' := { st with videos := st.videos.filter (fun r => !(r.video_id == video_id)) }
      (add_stat now st' row.telegram_user_id video_id "delete", true)

/-- `CleanupService.delete_video_files` (src/cleanup/cleanup_cron.py:31-45):
remove the video file if it exists, then the thumbnail if a thumbnail path
is present and the file exists. -/
def delete_video_files (fs : Fs) (file_path : String)
    (thumbnail_path : Option String) : Fs :=
  let fs1 := if (fs.lookup file_path).isSome then fs.remove file_path else fs
  match thumbnail_path with
  | some t => if (fs1.lookup t).isSome then fs1.remove t else fs1
  | none => fs1

/-- The loop body of `CleanupService.cleanup_expired_videos`
(src/cleanup/cleanup_cron.py:58-69): for each listed video, delete its
files then its catalog row. -/
def sweepDeletes (now : ℤ) : List VideoRow → State → State
  | [], st => st
  | v :: rest, st =>
      let fs' := delete_video_files st.fs v.file_path v.thumbnail_path
      let st' := (delete_video now { st with fs := fs' } v.video_id).1
      sweepDeletes now rest st'

/-- `CleanupService.cleanup_expired_videos` (src/cleanup/cleanup_cron.py:47-72):
query the expired rows, then delete each one's files and catalog row. -/
def cleanup_expired_videos (now : ℤ) (st : State) : State :=
  sweepDeletes now (get_expired_videos now st.videos) st

/-- The `delete` audit entry `delete_video` appends for a row. -/
def deleteStatEntry (now : ℤ) (v : VideoRow) : StatRow :=
  ⟨v.telegram_user_id, v.video_id, "delete", now⟩

/-- All file paths removed when the given rows are deleted (each row's
video file plus its thumbnail when present). -/
def delPaths : List VideoRow → List String
  | [] => []
  | v :: rest => v.file_path :: (v.thumbnail_path.toList ++ delPaths rest)

/-- `CleanupService.get_total_storage_used` (src/cleanup/cleanup_cron.py:74-93):
sum of the sizes of all files in the storage area. -/
def get_total_storage_used (fs : Fs) : ℕ :=
  (fs.map Prod.snd).sum

/-- The eviction loop of `CleanupService.cleanup_excess_storage`
(src/cleanup/cleanup_cron.py:117-138), projected onto its deletion
sequence and storage accounting.  `used` tracks
`total_used - freed_space`; each iteration first checks
`total_used - freed_space <= target_size`, then measures the video file's
size (0 when the file is missing), deletes files and the row, and adds the
measured size to `freed_space`.  Returns the deleted rows in order and the
final projected usage. -/
def cleanup_excess_deletions (target : ℚ) : ℚ → Fs → List VideoRow → List VideoRow × ℚ
  | used, _, [] => ([], used)
  | used, fs, v :: rest =>
      if used ≤ target then ([], used)
      else
        let fsize : ℕ := (fs.lookup v.file_path).getD 0
        let fs' := delete_video_files fs v.file_path v.thumbnail_path
        let res := cleanup_excess_deletions target (used - (fsize : ℚ)) fs' rest
        (v :: res.1, res.2)

/-- `CleanupService.cleanup_excess_storage` (src/cleanup/cleanup_cron.py:95-143):
if usage is at most the ceiling, do nothing; otherwise fetch all videos
oldest-first and delete until projected usage is at most 90% of the
ceiling or no videos remain.  Projected onto the deletion sequence and the
final projected usage `total_used - freed_space`. -/
def cleanup_excess_storage (max_storage_bytes : ℚ) (st : State) : List VideoRow × ℚ :=
  let total_used := get_total_storage_used st.fs
  if (total_used : ℚ) ≤ max_storage_bytes then ([], (total_used : ℚ))
  else
    let all_videos := get_all_videos_sorted_by_age st.videos
    if all_videos.isEmpty then ([], (total_used : ℚ))
    else
      let target_size := max_storage_bytes * (9 / 10)
      cleanup_excess_deletions target_size (total_used : ℚ) st.fs all_videos

end Cleanup

namespace Downloader

/-- State of the downloader's catalog: the `videos` and `download_stats`
tables plus `user_settings` (association of `telegram_user_id` with the
`send_description` flag, schema in src/downloader/database.py:69-76). -/
structure DbState where
  videos : List VideoRow
  stats : List StatRow
  user_settings : List (ℤ × ℤ)
  deriving DecidableEq

/-- The `video_data` dict built by `DownloadWorker.process_download`
(src/downloader/worker.py:176-192) and passed to `Database.add_video`. -/
structure VideoData where
  video_id : String
  telegram_user_id : ℤ
  original_url : String
  title : String
  original_quality : Option String
  downloaded_quality : String
  file_size : ℤ
  processing_time : ℤ
  format : String
  codec : Option String
  source_platform : Option String
  file_path : String
  thumbnail_path : Option String
  download_timestamp : ℤ
  delete_timestamp : ℤ
  deriving DecidableEq, Repr

/-- SQLite `AUTOINCREMENT` row id for an insert: strictly larger than
every id currently in the table. -/
def nextRowId (videos : List VideoRow) : ℕ :=
  videos.foldr (fun r acc => max r.id acc) 0 + 1

/-- The row written by the `INSERT` branch of `Database.add_video`
(src/downloader/database.py:128-155); `created_at` defaults to the
current time. -/
def newRow (id : ℕ) (now : ℤ) (d : VideoData) : VideoRow :=
  { id := id
    video_id := d.video_id
    telegram_user_id := d.telegram_user_id
    original_url := d.original_url
    title := d.title
    original_quality := d.original_quality
    downloaded_quality := d.downloaded_quality
    file_size := d.file_size
    processing_time := d.processing_time
    format := d.format
    codec := d.codec
    source_platform := d.source_platform
    file_path := d.file_path
    thumbnail_path := d.thumbnail_path
    download_timestamp := d.download_timestamp
    delete_timestamp := d.delete_timestamp
    created_at := now }

/-- The `UPDATE ... WHERE video_id = ?` branch of `Database.add_video`
(src/downloader/database.py:89-126): refresh every column of the matched
row except `id` and `created_at`. -/
def updateRow (r : VideoRow) (d : VideoData) : VideoRow :=
  { r with
    telegram_user_id := d.telegram_user_id
    original_url := d.original_url
    title := d.title
    original_quality := d.original_quality
    downloaded_quality := d.downloaded_quality
    file_size := d.file_size
    processing_time := d.processing_time
    format := d.format
    codec := d.codec
    source_platform := d.source_platform
    file_path := d.file_path
    thumbnail_path := d.thumbnail_path
    download_timestamp := d.download_timestamp
    delete_timestamp := d.delete_timestamp }

/-- `Database.add_stat` (src/downloader/database.py:166-172). -/
def db_add_stat (now : ℤ) (db : DbState) (user_id : ℤ) (video_id : String)
    (action : String) : DbState :=
  { db with stats := db.stats ++ [⟨user_id, video_id, action, now⟩] }

/-- `Database.add_video` (src/downloader/database.py:80-164): check for an
existing row with the same `video_id`; update it in place when found,
insert a fresh row otherwise; then append one `download` stat entry. -/
def add_video (now : ℤ) (db : DbState) (d : VideoData) : DbState :=
  match db.videos.find? (fun r => r.video_id == d.video_id) with
  | some _ =>
      let db1 := { db with
        videos := db.videos.map (fun r => if r.video_id == d.video_id then updateRow r d else r) }
      db_add_stat now db1 d.telegram_user_id d.video_id "download"
  | none =>
      let db1 := { db with
        videos := db.videos ++ [newRow (nextRowId db.videos) now d] }
      db_add_stat now db1 d.telegram_user_id d.video_id "download"

/-- `Database.get_user_setting` for `send_description`
(src/downloader/database.py:174-180). -/
def get_user_setting (db : DbState) (user_id : ℤ) : Option ℤ :=
  (db.user_settings.find? (fun e => e.1 == user_id)).map Prod.snd

/-- A job descriptor popped from the `download_queue`
(src/downloader/worker.py:148-153). -/
structure Task where
  url : String
  quality : String
  user_id : ℤ
  chat_id : ℤ
  deriving DecidableEq, Repr

/-- The success payload returned by `VideoDownloader.download`
(src/downloader/ytdlp_wrapper.py:191-205). -/
structure DlInfo where
  video_id : String
  title : String
  original_quality : Option String
  file_path : String
  file_size : ℤ
  format : String
  codec : Option String
  source_platform : Option String
  thumbnail_path : Option String
  width : Option ℤ
  height : Option ℤ
  description : String
  deriving DecidableEq, Repr

/-- Result of the extraction adapter: the `success` flag with either the
artifact descriptor or the error text. -/
inductive DlResult where
  | success (info : DlInfo)
  | failure (error : String)
  deriving DecidableEq, Repr

/-- One side effect fired through the Telegram bot API. -/
inductive BotAction where
  | sendMessage (chat_id : ℤ) (text : String)
  | sendAudio (chat_id : ℤ) (file_path : String)
  | sendVideo (chat_id : ℤ) (file_path : String) (thumbnail_path : Option String)
  deriving DecidableEq, Repr

/-- Whether an action is a binary media transfer (as opposed to a plain
text notification). -/
def BotAction.isTransfer : BotAction → Bool
  | .sendMessage _ _ => false
  | .sendAudio _ _ => true
  | .sendVideo _ _ _ => true

/-- Text of the failure notification sent when the adapter step fails
(src/downloader/worker.py:164-168). -/
def downloadFailedText (error : String) : String :=
  "❌ Download failed: " ++ error

/-- Text of the oversized-file fallback notice
(src/downloader/worker.py:80-83); the source renders the size in MB with
one decimal, abstracted here as the raw byte count. -/
def tooLargeText (file_size : ℤ) : String :=
  "⚠️ File too large for Telegram Bot API (" ++ toString file_size ++
    " bytes > 50 MB).\n\n📥 Download via web interface:\nhttps://televideo.cnr.pw"

/-- Text of the error notice sent from `send_file`'s exception handler
(src/downloader/worker.py:117-122). -/
def sendFileErrorText : String :=
  "❌ Error sending file"

/-- Text of the completion summary built by
`DownloadWorker.send_stats_message` (src/downloader/worker.py:54-69); the
source's human formatting of sizes, durations and dates is abstracted as
decimal rendering of the raw values. -/
def statsMessageText (d : VideoData) : String :=
  "✅ Download complete\n\n📹 Original quality: " ++ (d.original_quality.getD "N/A") ++
    "\n⬇️ Downloaded quality: " ++ d.downloaded_quality ++
    "\n📦 File size: " ++ toString d.file_size ++
    "\n⏱ Processing time: " ++ toString d.processing_time ++
    "\n🎬 Format: " ++ d.format ++ " (" ++ (d.codec.getD "N/A") ++ ")" ++
    "\n🗑 Auto-delete: " ++ toString d.delete_timestamp ++
    "\n\nSource: " ++ (d.source_platform.getD "Unknown") ++
    "\nTitle: " ++ d.title

/-- `DownloadWorker.send_stats_message` (src/downloader/worker.py:54-69):
one text message with the completion summary. -/
def send_stats_message (chat_id : ℤ) (d : VideoData) : BotAction :=
  .sendMessage chat_id (statsMessageText d)

/-- `DownloadWorker.send_file` (src/downloader/worker.py:71-122): read the
file size (a missing file raises, caught by the handler which sends an
error notice); files over 50 MB get the fallback notice and no transfer;
otherwise `.mp3` files are sent as audio and everything else as video. -/
def send_file (fs : Fs) (chat_id : ℤ) (file_path : String)
    (thumbnail_path : Option String) : List BotAction :=
  match fs.lookup file_path with
  | none => [.sendMessage chat_id sendFileErrorText]
  | some file_size =>
      if 50 * 1024 * 1024 < file_size then
        [.sendMessage chat_id (tooLargeText file_size)]
      else if strEndsWith file_path ".mp3" then
        [.sendAudio chat_id file_path]
      else
        [.sendVideo chat_id file_path thumbnail_path]

/-- `DownloadWorker.send_description` (src/downloader/worker.py:124-146):
skip empty or whitespace-only descriptions; truncate to 4000 characters
with an ellipsis; send one text message. -/
def send_description (chat_id : ℤ) (description : String) : List BotAction :=
  if description.trim == "" then []
  else
    let d := if 4000 < description.length then
        (description.take 4000) ++ "..." else description
    [.sendMessage chat_id ("📝 Description:\n\n" ++ d)]

/-- The `video_data` dict built on job success
(src/downloader/worker.py:172-192).  The two `time.time()` reads (for
`delete_timestamp` and `download_timestamp`) are modelled as the same
instant `now`; `processing_time` is the measured wall-clock elapsed
time. -/
def mk_video_data (task : Task) (info : DlInfo) (now : ℤ)
    (processing_time : ℤ) (retention_days : ℤ) : VideoData :=
  { video_id := info.video_id
    telegram_user_id := task.user_id
    original_url := task.url
    title := info.title
    original_quality := info.original_quality
    downloaded_quality := task.quality
    file_size := info.file_size
    processing_time := processing_time
    format := info.format
    codec := info.codec
    source_platform := info.source_platform
    file_path := info.file_path
    thumbnail_path := info.thumbnail_path
    download_timestamp := now
    delete_timestamp := now + retention_days * 24 * 60 * 60 }

/-- Outcome of one `process_download` call: the catalog state, the bot
actions fired in order, and any tasks pushed back onto the queue (the
worker never re-enqueues: no code path in src/downloader/worker.py writes
to the queue). -/
structure ProcessOutcome where
  db : DbState
  actions : List BotAction
  requeues : List Task
  deriving DecidableEq

/-- `DownloadWorker.process_download` (src/downloader/worker.py:148-228).
On adapter failure: a failure notification when `chat_id ≠ 0`, nothing
else.  On success: upsert the artifact row (which appends the `download`
stat entry), then — only when `chat_id ≠ 0` — the completion summary, the
file transfer, and optionally the description message gated by the user's
`send_description` setting (falling back to the process-wide default).
`send_post_description` is the `SEND_POST_DESCRIPTION` environment
default and `retention_days` is `RETENTION_DAYS`. -/
def process_download (send_post_description : Bool) (retention_days : ℤ)
    (now : ℤ) (processing_time : ℤ) (fs : Fs) (db : DbState) (task : Task)
    (result : DlResult) : ProcessOutcome :=
  match result with
  | .failure error =>
      { db := db
        actions := if task.chat_id ≠ 0 then
            [.sendMessage task.chat_id (downloadFailedText error)] else []
        requeues := [] }
  | .success info =>
      let video_data := mk_video_data task info now processing_time retention_days
      let db1 := add_video now db video_data
      let actions :=
        if task.chat_id ≠ 0 then
          let user_setting := get_user_setting db1 task.user_id
          let send_desc : Bool := match user_setting with
            | some v => v != 0
            | none => send_post_description
          [send_stats_message task.chat_id video_data] ++
            send_file fs task.chat_id info.file_path info.thumbnail_path ++
            (if send_desc then send_description task.chat_id info.description else [])
        else []
      { db := db1, actions := actions, requeues := [] }

end Downloader

namespace Thumb

/-- An image file on disk: pixel dimensions plus the encoding it was
saved with. -/
structure Img where
  width : ℕ
  height : ℕ
  format : String
  deriving DecidableEq, Repr

/-- Filesystem view for the thumbnail step: paths mapped to image files. -/
abbrev ImgFs : Type := List (String × Img)

/-- Look up the image at `p`. -/
def ImgFs.lookup (fs : ImgFs) (p : String) : Option Img :=
  lookupPath fs p

/-- Save an image at `p`, overwriting any existing file. -/
def ImgFs.save (fs : ImgFs) (p : String) (img : Img) : ImgFs :=
  (p, img) :: List.filter (fun e => !(e.1 == p)) fs

/-- Delete the file at `p` (models `os.remove`). -/
def ImgFs.remove (fs : ImgFs) (p : String) : ImgFs :=
  List.filter (fun e => !(e.1 == p)) fs

/-- The candidate extensions scanned by `VideoDownloader._process_thumbnail`
(src/downloader/ytdlp_wrapper.py:232). -/
def thumbnail_extensions : List String :=
  [".jpg", ".jpeg", ".png", ".webp"]

/-- The search loop of `_process_thumbnail`
(src/downloader/ytdlp_wrapper.py:235-239): try each extension in order and
return the first existing cover file together with its image. -/
def findSourceThumb (fs : ImgFs) (videos_path video_id : String) :
    List String → Option (String × Img)
  | [] => none
  | ext :: rest =>
      let potential_path := videos_path ++ "/" ++ video_id ++ ext
      match fs.lookup potential_path with
      | some img => some (potential_path, img)
      | none => findSourceThumb fs videos_path video_id rest

/-- The dimension computation of `_process_thumbnail`
(src/downloader/ytdlp_wrapper.py:251-261): the longest side becomes 320
and the other side is `int(proportional * 320)`.  Python's `int()`
truncates toward zero, which on these nonnegative values is floor — hence
natural-number division here; the source's float division is modelled as
exact rational arithmetic. -/
def resizeDims (width height : ℕ) : ℕ × ℕ :=
  if height < width then (320, height * 320 / width)
  else (width * 320 / height, 320)

/-- `VideoDownloader._process_thumbnail`
(src/downloader/ytdlp_wrapper.py:228-281): find the downloaded cover
image; resize preserving aspect ratio; save as JPEG under the thumbnails
directory; remove the original; return the new path.  `none` when no
cover file exists. -/
def process_thumbnail (fs : ImgFs) (videos_path thumbnails_path video_id : String) :
    ImgFs × Option String :=
  match findSourceThumb fs videos_path video_id thumbnail_extensions with
  | none => (fs, none)
  | some (source_thumb, img) =>
      let output_path := thumbnails_path ++ "/" ++ video_id ++ ".jpg"
      let dims := resizeDims img.width img.height
      let fs1 := fs.save output_path ⟨dims.1, dims.2, "JPEG"⟩
      let fs2 := if (fs1.lookup source_thumb).isSome then fs1.remove source_thumb else fs1
      (fs2, some output_path)

/-- Modelled from the spec: the shorter edge as the spec's words describe
it — the aspect-ratio-proportional length `num / den * 320` rounded to the
NEAREST integer pixel (`⌊x + 1/2⌋`, expressed over naturals). -/
def roundNearest (num den : ℕ) : ℕ :=
  (2 * num + den) / (2 * den)

/-- Modelled from the spec: thumbnail dimensions with nearest-integer
rounding of the shorter edge, to be compared against `resizeDims`. -/
def resizeDims_spec (width height : ℕ) : ℕ × ℕ :=
  if height < width then (320, roundNearest (height * 320) width)
  else (roundNearest (width * 320) height, 320)

end Thumb

/-- A 2 GiB-sized artifact row used in the quota scenarios. -/
def scenarioVideo (id : ℕ) (video_id file_path : String) (ts : ℤ) : VideoRow :=
  ⟨id, video_id, 7, "u", "T", none, "best", 2147483648, 1, "mp4", none, none,
    file_path, none, ts, ts + 259200, ts⟩

/-- The spec's scenario state: three 2 GiB artifacts ingested at times
1 < 2 < 3 (listed in scrambled table order), 6 GiB of files on disk
against a 5 GiB ceiling. -/
def scenarioState : Cleanup.State :=
  { videos := [scenarioVideo 2 "b" "videos/b.mp4" 2,
               scenarioVideo 3 "c" "videos/c.mp4" 3,
               scenarioVideo 1 "a" "videos/a.mp4" 1],
    stats := [],
    fs := [("videos/a.mp4", 2147483648), ("videos/b.mp4", 2147483648),
           ("videos/c.mp4", 2147483648)] }

/-- A state refuting C1 as stated: one artifact whose 5 000 000 000-byte
usage sits strictly between 90% of the 5 GiB ceiling and the ceiling. -/
def underCeilingState : Cleanup.State :=
  { videos := [scenarioVideo 1 "a" "videos/a.mp4" 1],
    stats := [],
    fs := [("videos/a.mp4", 5000000000)] }

/-! ## Helper lemmas -/

/-- Looking up a key in an association list after filtering out one key:
the filtered key is gone, everything else is untouched. -/
theorem lookupPath_filter_ne {β : Type} (l : List (String × β)) (p q : String) :
    lookupPath (l.filter (fun e => !(e.1 == p))) q =
      if q = p then none else lookupPath l q := by
  induction l with
  | nil => simp [lookupPath]
  | cons e t ih =>
      by_cases hk : e.1 = p
      · have hkb : (e.1 == p) = true := beq_iff_eq.mpr hk
        by_cases hq : q = p
        · subst hq
          simp [List.filter_cons, hkb, ih]
        · have : (e.1 == q) = false := beq_eq_false_iff_ne.mpr (hk ▸ hq ∘ Eq.symm)
          simp [List.filter_cons, hkb, ih, hq, lookupPath, this]
      · have hkb : (e.1 == p) = false := beq_eq_false_iff_ne.mpr hk
        by_cases hq : e.1 = q
        · have hqp : ¬ q = p := fun h => hk (hq.trans h)
          simp [List.filter_cons, hkb, lookupPath, beq_iff_eq.mpr hq, hqp]
        · simp [List.filter_cons, hkb, lookupPath, beq_eq_false_iff_ne.mpr hq, ih]

/-- Conditional removal (`os.remove` guarded by `os.path.exists`) behaves
like unconditional removal on lookups. -/
theorem Fs.lookup_guarded_remove (fs : Fs) (p q : String) :
    Fs.lookup (if (fs.lookup p).isSome then fs.remove p else fs) q =
      if q = p then none else fs.lookup q := by
  split
  · exact lookupPath_filter_ne fs p q
  · rename_i h
    split
    · rename_i hq
      subst hq
      simpa [Fs.lookup] using h
    · rfl

/-- Lookup through `Cleanup.delete_video_files`: exactly the deleted
paths disappear. -/
theorem Cleanup.delete_video_files_lookup (fs : Fs) (fp : String)
    (tp : Option String) (q : String) :
    (Cleanup.delete_video_files fs fp tp).lookup q =
      if q = fp ∨ q ∈ tp.toList then none else fs.lookup q := by
  unfold Cleanup.delete_video_files
  cases tp with
  | none =>
      simpa using Fs.lookup_guarded_remove fs fp q
  | some t =>
      simp only [Option.toList_some, List.mem_singleton]
      rw [Fs.lookup_guarded_remove _ t q, Fs.lookup_guarded_remove fs fp q]
      by_cases hq : q = t
      · simp [hq]
      · by_cases hq' : q = fp <;> simp [hq, hq']

/-- In a list of rows with pairwise-distinct `video_id`s (the `videos`
table's UNIQUE constraint), `find?` on a member's id returns exactly that
member. -/
theorem find?_video_id_eq {l : List VideoRow}
    (hnd : (l.map (·.video_id)).Nodup) {r : VideoRow} (hr : r ∈ l) :
    l.find? (fun w => w.video_id == r.video_id) = some r := by
  induction l with
  | nil => cases hr
  | cons x t ih =>
      simp only [List.map_cons, List.nodup_cons] at hnd
      rcases List.mem_cons.mp hr with h | h
      · subst h
        simp [List.find?_cons]
      · have hx : x.video_id ≠ r.video_id := by
          intro he
          apply hnd.1
          rw [he]
          exact List.mem_map_of_mem _ h
        rw [List.find?_cons, beq_eq_false_iff_ne.mpr hx]
        exact ih hnd.2 h

/-- Removing the rows carrying one member's `video_id` from a
distinct-id table shrinks it by exactly one row. -/
theorem filter_ne_video_id_length {l : List VideoRow}
    (hnd : (l.map (·.video_id)).Nodup) {r : VideoRow} (hr : r ∈ l) :
    (l.filter (fun w => !(w.video_id == r.video_id))).length + 1 = l.length := by
  induction l with
  | nil => cases hr
  | cons x t ih =>
      simp only [List.map_cons, List.nodup_cons] at hnd
      rcases List.mem_cons.mp hr with h | h
      · subst h
        have ht : t.filter (fun w => !(w.video_id == r.video_id)) = t := by
          rw [List.filter_eq_self]
          intro a ha
          have hne : a.video_id ≠ r.video_id := by
            intro he
            apply hnd.1
            rw [← he]
            exact List.mem_map_of_mem _ ha
          simp [beq_eq_false_iff_ne.mpr hne]
        simp [List.filter_cons, ht]
      · have hx : x.video_id ≠ r.video_id := by
          intro he
          apply hnd.1
          rw [he]
          exact List.mem_map_of_mem _ h
        simp only [List.filter_cons, beq_eq_false_iff_ne.mpr hx, Bool.not_false,
          if_true, List.length_cons]
        rw [← ih hnd.2 h]

/-! ## C7: delivery payload ceiling -/

/-- C7: for every delivery attempt where the file's size exceeds the 50 MB
channel ceiling, `send_file` sends only the fallback "too large" notice
and never a binary transfer; conversely, a binary transfer action is
emitted only when the file exists and its size is at most the ceiling. -/
theorem C7_send_file_payload_ceiling :
    (∀ (fs : Fs) (chat_id : ℤ) (file_path : String)
        (thumbnail_path : Option String) (file_size : ℕ),
        fs.lookup file_path = some file_size →
        50 * 1024 * 1024 < file_size →
        Downloader.send_file fs chat_id file_path thumbnail_path =
          [.sendMessage chat_id (Downloader.tooLargeText file_size)]) ∧
    (∀ (fs : Fs) (chat_id : ℤ) (file_path : String)
        (thumbnail_path : Option String) (a : Downloader.BotAction),
        a ∈ Downloader.send_file fs chat_id file_path thumbnail_path →
        a.isTransfer = true →
        ∃ file_size : ℕ, fs.lookup file_path = some file_size ∧
          file_size ≤ 50 * 1024 * 1024) := by
  constructor
  · intro fs chat_id file_path thumbnail_path file_size hlook hbig
    unfold Downloader.send_file
    rw [hlook]
    simp [if_pos hbig]
  · intro fs chat_id file_path thumbnail_path a hmem htr
    cases hlook : fs.lookup file_path with
    | none =>
        have ha : a = .sendMessage chat_id Downloader.sendFileErrorText := by
          simpa [Downloader.send_file, hlook] using hmem
        rw [ha] at htr
        simp [Downloader.BotAction.isTransfer] at htr
    | some sz =>
        by_cases hbig : 50 * 1024 * 1024 < sz
        · have ha : a = .sendMessage chat_id (Downloader.tooLargeText sz) := by
            simpa [Downloader.send_file, hlook, hbig] using hmem
          rw [ha] at htr
          simp [Downloader.BotAction.isTransfer] at htr
        · exact ⟨sz, rfl, le_of_not_lt hbig⟩

/-- Witness for C7 at concrete inputs: a 60 MiB file produces exactly the
fallback notice, and an emitted audio transfer implies a size within the
ceiling. -/
theorem C7_witness :
    (Downloader.send_file [("f.mp4", 62914560)] 9 "f.mp4" none =
      [.sendMessage 9 (Downloader.tooLargeText 62914560)]) ∧
    (∃ file_size : ℕ, Fs.lookup [("f.mp3", 1000)] "f.mp3" = some file_size ∧
      file_size ≤ 50 * 1024 * 1024) :=
  ⟨C7_send_file_payload_ceiling.1 [("f.mp4", 62914560)] 9 "f.mp4" none
      62914560 (by rfl) (by norm_num),
    C7_send_file_payload_ceiling.2 [("f.mp3", 1000)] 9 "f.mp3" none
      (.sendAudio 9 "f.mp3") (by decide) (by rfl)⟩

/-! ## C8: anonymous submissions get no notification -/

/-- C8: for every job descriptor with delivery target `chat_id = 0`, no
bot action of any kind is emitted — no completion summary, no transfer, no
description, no failure notice — whether the job succeeds or fails. -/
theorem C8_anonymous_no_notification
    (send_post_description : Bool) (retention_days now processing_time : ℤ)
    (fs : Fs) (db : Downloader.DbState) (task : Downloader.Task)
    (result : Downloader.DlResult) (h : task.chat_id = 0) :
    (Downloader.process_download send_post_description retention_days now
      processing_time fs db task result).actions = [] := by
  cases result with
  | failure error => simp [Downloader.process_download, h]
  | success info => simp [Downloader.process_download, h]

/-- Witness for C8 at concrete inputs (both a failing and a succeeding
job with `chat_id = 0`). -/
theorem C8_witness :
    (Downloader.process_download true 3 1000 5 [] ⟨[], [], []⟩
      ⟨"u", "best", 0, 0⟩ (.failure "boom")).actions = [] ∧
    (Downloader.process_download true 3 1000 5 [] ⟨[], [], []⟩
      ⟨"u", "best", 0, 0⟩
      (.success ⟨"v1", "T", none, "videos/v1.mp4", 100, "mp4", none, none,
        none, none, none, "hi"⟩)).actions = [] :=
  ⟨C8_anonymous_no_notification true 3 1000 5 [] ⟨[], [], []⟩
      ⟨"u", "best", 0, 0⟩ (.failure "boom") rfl,
    C8_anonymous_no_notification true 3 1000 5 [] ⟨[], [], []⟩
      ⟨"u", "best", 0, 0⟩
      (.success ⟨"v1", "T", none, "videos/v1.mp4", 100, "mp4", none, none,
        none, none, none, "hi"⟩) rfl⟩

/-! ## C4: adapter failure leaves the catalog untouched -/

/-- C4: when the extraction step fails, the catalog state is completely
unchanged (no artifact row inserted or updated, no `download` audit
entry), nothing is requeued, and — exactly when the job has a non-zero
delivery target — a single failure notification carrying the adapter's
error text is sent. -/
theorem C4_failure_no_catalog_row
    (send_post_description : Bool) (retention_days now processing_time : ℤ)
    (fs : Fs) (db : Downloader.DbState) (task : Downloader.Task)
    (error : String) :
    (Downloader.process_download send_post_description retention_days now
        processing_time fs db task (.failure error)).db = db ∧
    (Downloader.process_download send_post_description retention_days now
        processing_time fs db task (.failure error)).requeues = [] ∧
    (task.chat_id ≠ 0 →
      (Downloader.process_download send_post_description retention_days now
          processing_time fs db task (.failure error)).actions =
        [.sendMessage task.chat_id (Downloader.downloadFailedText error)]) ∧
    (task.chat_id = 0 →
      (Downloader.process_download send_post_description retention_days now
          processing_time fs db task (.failure error)).actions = []) := by
  refine ⟨rfl, rfl, ?_, ?_⟩
  · intro h
    simp [Downloader.process_download, h]
  · intro h
    simp [Downloader.process_download, h]

/-- Witness for C4 at a concrete failing job with a real delivery
target. -/
theorem C4_witness :
    (Downloader.process_download true 3 1000 5 [] ⟨[], [], []⟩
      ⟨"u", "best", 3, 9⟩ (.failure "boom")).actions =
      [.sendMessage 9 (Downloader.downloadFailedText "boom")] :=
  (C4_failure_no_catalog_row true 3 1000 5 [] ⟨[], [], []⟩
    ⟨"u", "best", 3, 9⟩ "boom").2.2.1 (by decide)

/-! ## C5 and C6: upsert semantics of `add_video` -/

/-- Every row of the catalog carrying the upserted `video_id` after
`add_video` holds the new data's size, quality, path and timestamps —
whether the row was updated in place or freshly inserted. -/
theorem Downloader.add_video_matching_fields (now : ℤ)
    (db : Downloader.DbState) (d : Downloader.VideoData) :
    ∀ r ∈ (Downloader.add_video now db d).videos, r.video_id = d.video_id →
      r.file_size = d.file_size ∧ r.downloaded_quality = d.downloaded_quality ∧
      r.file_path = d.file_path ∧ r.download_timestamp = d.download_timestamp ∧
      r.delete_timestamp = d.delete_timestamp := by
  intro r hr hv
  cases hfind : db.videos.find? (fun w => w.video_id == d.video_id) with
  | some w =>
      simp only [Downloader.add_video, hfind, Downloader.db_add_stat] at hr
      rcases List.mem_map.mp hr with ⟨x, hx, hxr⟩
      by_cases hxv : x.video_id = d.video_id
      · rw [← hxr, beq_iff_eq.mpr hxv]
        simp [Downloader.updateRow]
      · have hxe : x = r := by
          simpa [beq_eq_false_iff_ne.mpr hxv] using hxr
        exact absurd (hxe ▸ hv) hxv
  | none =>
      simp only [Downloader.add_video, hfind, Downloader.db_add_stat] at hr
      rcases List.mem_append.mp hr with h | h
      · have := List.find?_eq_none.mp hfind r h
        exact absurd hv (by simpa [beq_iff_eq] using this)
      · have hre : r = Downloader.newRow (Downloader.nextRowId db.videos) now d := by
          simpa using h
        subst hre
        simp [Downloader.newRow]

/-- C5: for every successfully processed job, the stored artifact row
carries `download_timestamp = now` (the spec's `created_at`, the
ingestion time) and `delete_timestamp = now + RETENTION_DAYS × 86400`
(the spec's `expires_at`), so the expiry deadline is strictly after the
ingestion time whenever the retention window is positive. -/
theorem C5_expiry_deadline
    (send_post_description : Bool) (retention_days now processing_time : ℤ)
    (fs : Fs) (db : Downloader.DbState) (task : Downloader.Task)
    (info : Downloader.DlInfo) :
    ∀ r ∈ (Downloader.process_download send_post_description retention_days
        now processing_time fs db task (.success info)).db.videos,
      r.video_id = info.video_id →
        r.download_timestamp = now ∧
        r.delete_timestamp = now + retention_days * 86400 ∧
        (0 < retention_days → r.download_timestamp < r.delete_timestamp) := by
  intro r hr hv
  have hdb : (Downloader.process_download send_post_description retention_days
      now processing_time fs db task (.success info)).db =
      Downloader.add_video now db
        (Downloader.mk_video_data task info now processing_time retention_days) := rfl
  rw [hdb] at hr
  obtain ⟨_, _, _, h4, h5⟩ :=
    Downloader.add_video_matching_fields now db _ r hr
      (by simpa [Downloader.mk_video_data] using hv)
  have hdl : r.download_timestamp = now := by
    simpa [Downloader.mk_video_data] using h4
  have hde : r.delete_timestamp = now + retention_days * 86400 := by
    rw [h5]
    simp only [Downloader.mk_video_data]
    ring
  refine ⟨hdl, hde, ?_⟩
  intro hpos
  rw [hdl, hde]
  omega

/-- Witness for C5: a concrete successful job at `now = 1000` with a
3-day retention window yields a row expiring at `260200 > 1000`. -/
theorem C5_witness :
    (⟨1, "v1", 3, "u", "T", none, "best", 100, 5, "mp4", none, none,
        "videos/v1.mp4", none, 1000, 260200, 1000⟩ : VideoRow).download_timestamp
        = 1000 ∧
    (⟨1, "v1", 3, "u", "T", none, "best", 100, 5, "mp4", none, none,
        "videos/v1.mp4", none, 1000, 260200, 1000⟩ : VideoRow).delete_timestamp
        = 1000 + 3 * 86400 ∧
    ((0:ℤ) < 3 →
      (⟨1, "v1", 3, "u", "T", none, "best", 100, 5, "mp4", none, none,
          "videos/v1.mp4", none, 1000, 260200, 1000⟩ : VideoRow).download_timestamp
        < (⟨1, "v1", 3, "u", "T", none, "best", 100, 5, "mp4", none, none,
          "videos/v1.mp4", none, 1000, 260200, 1000⟩ : VideoRow).delete_timestamp) :=
  C5_expiry_deadline true 3 1000 5 [] ⟨[], [], []⟩ ⟨"u", "best", 3, 9⟩
    ⟨"v1", "T", none, "videos/v1.mp4", 100, "mp4", none, none, none, none,
      none, "hi"⟩
    ⟨1, "v1", 3, "u", "T", none, "best", 100, 5, "mp4", none, none,
      "videos/v1.mp4", none, 1000, 260200, 1000⟩
    (List.mem_singleton.mpr rfl) rfl

/-- C6: upserting with a `video_id` already present in the `videos` table
keeps the row count unchanged; upserting a fresh `video_id` adds exactly
one row; and afterwards every row carrying that id holds the refreshed
size, quality, file path and timestamps. -/
theorem C6_upsert_row_count (now : ℤ) (db : Downloader.DbState)
    (d : Downloader.VideoData) :
    ((∃ r ∈ db.videos, r.video_id = d.video_id) →
        (Downloader.add_video now db d).videos.length = db.videos.length) ∧
    ((∀ r ∈ db.videos, r.video_id ≠ d.video_id) →
        (Downloader.add_video now db d).videos.length = db.videos.length + 1) ∧
    (∀ r ∈ (Downloader.add_video now db d).videos, r.video_id = d.video_id →
      r.file_size = d.file_size ∧ r.downloaded_quality = d.downloaded_quality ∧
      r.file_path = d.file_path ∧ r.download_timestamp = d.download_timestamp ∧
      r.delete_timestamp = d.delete_timestamp) := by
  refine ⟨?_, ?_, Downloader.add_video_matching_fields now db d⟩
  · rintro ⟨r, hr, hv⟩
    cases hfind : db.videos.find? (fun w => w.video_id == d.video_id) with
    | none =>
        have := List.find?_eq_none.mp hfind r hr
        exact absurd (beq_iff_eq.mpr hv) this
    | some w =>
        simp [Downloader.add_video, hfind, Downloader.db_add_stat]
  · intro h
    have hfind : db.videos.find? (fun w => w.video_id == d.video_id) = none :=
      List.find?_eq_none.mpr (fun x hx => by
        simpa [beq_iff_eq] using h x hx)
    simp [Downloader.add_video, hfind, Downloader.db_add_stat]

/-- Witness for C6: re-ingesting `video_id = "v1"` into a one-row catalog
keeps one row; ingesting it into an empty catalog yields one row; the
refreshed row carries the new timestamps. -/
theorem C6_witness :
    (Downloader.add_video 2000 ⟨[⟨1, "v1", 3, "u", "T", none, "best", 100, 5,
        "mp4", none, none, "videos/v1.mp4", none, 1000, 260200, 1000⟩], [], []⟩
      ⟨"v1", 3, "u", "T", none, "best", 200, 6, "mp4", none, none,
        "videos/v1.mp4", none, 2000, 261200⟩).videos.length = 1 ∧
    (Downloader.add_video 2000 ⟨[], [], []⟩
      ⟨"v1", 3, "u", "T", none, "best", 200, 6, "mp4", none, none,
        "videos/v1.mp4", none, 2000, 261200⟩).videos.length = 0 + 1 := by
  constructor
  · exact (C6_upsert_row_count 2000 ⟨[⟨1, "v1", 3, "u", "T", none, "best", 100,
        5, "mp4", none, none, "videos/v1.mp4", none, 1000, 260200, 1000⟩], [], []⟩
      ⟨"v1", 3, "u", "T", none, "best", 200, 6, "mp4", none, none,
        "videos/v1.mp4", none, 2000, 261200⟩).1
      ⟨_, List.mem_singleton.mpr rfl, rfl⟩
  · exact (C6_upsert_row_count 2000 ⟨[], [], []⟩
      ⟨"v1", 3, "u", "T", none, "best", 200, 6, "mp4", none, none,
        "videos/v1.mp4", none, 2000, 261200⟩).2.1
      (fun r hr => absurd hr (List.not_mem_nil r))

/-! ## C9: thumbnail resizing -/

/-- Lookup after `ImgFs.save`: the saved path maps to the new image,
everything else is untouched. -/
theorem Thumb.ImgFs.lookup_save (fs : Thumb.ImgFs) (p : String)
    (img : Thumb.Img) (q : String) :
    (Thumb.ImgFs.save fs p img).lookup q =
      if q = p then some img else fs.lookup q := by
  show lookupPath ((p, img) :: _) q = _
  by_cases hq : q = p
  · simp [lookupPath, beq_iff_eq.mpr hq.symm, hq]
  · have hpq : (p == q) = false := beq_eq_false_iff_ne.mpr (fun h => hq h.symm)
    simp only [lookupPath, hpq, Bool.false_eq_true, if_false]
    rw [lookupPath_filter_ne fs p q]
    simp [hq, Thumb.ImgFs.lookup]

/-- Conditional removal on the image filesystem behaves like
unconditional removal on lookups. -/
theorem Thumb.ImgFs.lookup_removeIfSome (fs : Thumb.ImgFs) (p q : String) :
    Thumb.ImgFs.lookup (if (fs.lookup p).isSome then fs.remove p else fs) q =
      if q = p then none else fs.lookup q := by
  split
  · exact lookupPath_filter_ne fs p q
  · rename_i h
    split
    · rename_i hq
      subst hq
      simpa [Thumb.ImgFs.lookup] using h
    · rfl

/-- C9 (amended): for every cover image with positive dimensions found by
the extension scan, thumbnail derivation returns the fixed
`<thumbnails>/<id>.jpg` path, the resized longest edge is exactly 320
with the shorter edge the proportional length rounded DOWN (floor — the
source's `int()` truncation), the saved file carries the fixed JPEG
encoding, and the original cover file is deleted. -/
theorem C9_thumbnail_resize_floor
    (fs : Thumb.ImgFs) (videos_path thumbnails_path video_id src : String)
    (img : Thumb.Img)
    (hfind : Thumb.findSourceThumb fs videos_path video_id
      Thumb.thumbnail_extensions = some (src, img))
    (hw : 0 < img.width) (hh : 0 < img.height) :
    (Thumb.process_thumbnail fs videos_path thumbnails_path video_id).2 =
      some (thumbnails_path ++ "/" ++ video_id ++ ".jpg") ∧
    max (Thumb.resizeDims img.width img.height).1
        (Thumb.resizeDims img.width img.height).2 = 320 ∧
    (img.height < img.width →
      (Thumb.resizeDims img.width img.height).2 =
        ⌊(img.height : ℚ) / (img.width : ℚ) * 320⌋₊) ∧
    (¬ img.height < img.width →
      (Thumb.resizeDims img.width img.height).1 =
        ⌊(img.width : ℚ) / (img.height : ℚ) * 320⌋₊) ∧
    (Thumb.process_thumbnail fs videos_path thumbnails_path video_id).1.lookup
      src = none ∧
    (src ≠ thumbnails_path ++ "/" ++ video_id ++ ".jpg" →
      (Thumb.process_thumbnail fs videos_path thumbnails_path video_id).1.lookup
          (thumbnails_path ++ "/" ++ video_id ++ ".jpg") =
        some ⟨(Thumb.resizeDims img.width img.height).1,
              (Thumb.resizeDims img.width img.height).2, "JPEG"⟩) := by
  have hfloor : ∀ a b : ℕ, 0 < b → (⌊(a : ℚ) / (b : ℚ) * 320⌋₊ = a * 320 / b) := by
    intro a b _
    rw [div_mul_eq_mul_div]
    rw [show ((a : ℚ) * 320) = ((a * 320 : ℕ) : ℚ) by push_cast; ring]
    exact Nat.floor_div_eq_div (a * 320) b
  refine ⟨?_, ?_, ?_, ?_, ?_, ?_⟩
  · simp [Thumb.process_thumbnail, hfind]
  · unfold Thumb.resizeDims
    by_cases hlt : img.height < img.width
    · rw [if_pos hlt]
      have : img.height * 320 / img.width ≤ 320 :=
        Nat.div_le_of_le_mul (Nat.mul_le_mul_right 320 (le_of_lt hlt))
      simpa using max_eq_left this
    · rw [if_neg hlt]
      have : img.width * 320 / img.height ≤ 320 :=
        Nat.div_le_of_le_mul (Nat.mul_le_mul_right 320 (le_of_not_lt hlt))
      simpa using max_eq_right this
  · intro hlt
    rw [hfloor img.height img.width hw]
    simp [Thumb.resizeDims, hlt]
  · intro hlt
    rw [hfloor img.width img.height hh]
    simp [Thumb.resizeDims, hlt]
  · simp only [Thumb.process_thumbnail, hfind]
    rw [Thumb.ImgFs.lookup_removeIfSome]
    simp
  · intro hne
    simp only [Thumb.process_thumbnail, hfind]
    rw [Thumb.ImgFs.lookup_removeIfSome]
    rw [if_neg (fun h => hne h.symm)]
    rw [Thumb.ImgFs.lookup_save]
    simp

/-- Witness for C9 (amended) at a concrete 13×9 cover image. -/
theorem C9_witness :
    (Thumb.process_thumbnail [("v/x.jpg", ⟨13, 9, "JPEG"⟩)] "v" "t" "x").2 =
      some ("t" ++ "/" ++ "x" ++ ".jpg") ∧
    (Thumb.resizeDims 13 9).2 = ⌊(9 : ℚ) / (13 : ℚ) * 320⌋₊ := by
  have h := C9_thumbnail_resize_floor [("v/x.jpg", ⟨13, 9, "JPEG"⟩)] "v" "t" "x"
    "v/x.jpg" ⟨13, 9, "JPEG"⟩ (by decide) (by decide) (by decide)
  exact ⟨h.1, h.2.2.1 (by decide)⟩

/-- Counterexample for C9 as stated: on a 13×9 cover image the pipeline
saves a 320×221 thumbnail (truncating 221.54 down), while rounding the
proportional length to the NEAREST integer pixel would give 222. -/
theorem C9_counterexample :
    (Thumb.process_thumbnail [("v/x.jpg", ⟨13, 9, "JPEG"⟩)] "v" "t" "x").1.lookup
      "t/x.jpg" = some ⟨320, 221, "JPEG"⟩ ∧
    Thumb.resizeDims 13 9 = (320, 221) ∧
    Thumb.resizeDims_spec 13 9 = (320, 222) ∧
    (221 : ℕ) ≠ 222 := by
  refine ⟨by decide, by decide, by decide, by decide⟩

/-! ## C10: `delete_video` on missing and present rows -/

/-- C10: deleting a `video_id` with no matching row returns `false` and
leaves the whole state (both tables and the filesystem) unchanged;
deleting a present id (under the table's UNIQUE id constraint) returns
`true`, removes exactly that row, appends exactly one `delete` stat entry
recording that row's owner, and touches nothing else. -/
theorem C10_delete_video_semantics (now : ℤ) (st : Cleanup.State)
    (vid : String) :
    ((∀ r ∈ st.videos, r.video_id ≠ vid) →
        Cleanup.delete_video now st vid = (st, false)) ∧
    (∀ r ∈ st.videos, r.video_id = vid →
      (st.videos.map (·.video_id)).Nodup →
        (Cleanup.delete_video now st vid).2 = true ∧
        (Cleanup.delete_video now st vid).1.videos =
          st.videos.filter (fun w => !(w.video_id == vid)) ∧
        (Cleanup.delete_video now st vid).1.videos.length + 1 =
          st.videos.length ∧
        r ∉ (Cleanup.delete_video now st vid).1.videos ∧
        (Cleanup.delete_video now st vid).1.stats =
          st.stats ++ [⟨r.telegram_user_id, vid, "delete", now⟩] ∧
        (Cleanup.delete_video now st vid).1.fs = st.fs) := by
  constructor
  · intro h
    have hfind : st.videos.find? (fun w => w.video_id == vid) = none :=
      List.find?_eq_none.mpr (fun x hx => by simpa [beq_iff_eq] using h x hx)
    simp [Cleanup.delete_video, hfind]
  · intro r hr hv hnd
    have hfind : st.videos.find? (fun w => w.video_id == vid) = some r := by
      have := find?_video_id_eq hnd hr
      rwa [hv] at this
    have hlen : (st.videos.filter (fun w => !(w.video_id == vid))).length + 1 =
        st.videos.length := by
      have := filter_ne_video_id_length hnd hr
      rwa [hv] at this
    refine ⟨?_, ?_, ?_, ?_, ?_, ?_⟩
    · simp [Cleanup.delete_video, hfind]
    · simp [Cleanup.delete_video, hfind, Cleanup.add_stat]
    · simpa [Cleanup.delete_video, hfind, Cleanup.add_stat] using hlen
    · intro hm
      simp only [Cleanup.delete_video, hfind, Cleanup.add_stat] at hm
      have := (List.mem_filter.mp hm).2
      simp [hv] at this
    · simp [Cleanup.delete_video, hfind, Cleanup.add_stat]
    · simp [Cleanup.delete_video, hfind, Cleanup.add_stat]

/-- Witness for C10 at a concrete one-row catalog: a missing id is a
no-op returning `false`; deleting the present id flags `true` and drops
the table to zero rows. -/
theorem C10_witness :
    (Cleanup.delete_video 50
      ⟨[⟨1, "v1", 3, "u", "T", none, "best", 100, 5, "mp4", none, none,
          "videos/v1.mp4", none, 1000, 260200, 1000⟩], [], []⟩ "zzz" =
      (⟨[⟨1, "v1", 3, "u", "T", none, "best", 100, 5, "mp4", none, none,
          "videos/v1.mp4", none, 1000, 260200, 1000⟩], [], []⟩, false)) ∧
    (Cleanup.delete_video 50
      ⟨[⟨1, "v1", 3, "u", "T", none, "best", 100, 5, "mp4", none, none,
          "videos/v1.mp4", none, 1000, 260200, 1000⟩], [], []⟩ "v1").2 = true ∧
    (Cleanup.delete_video 50
      ⟨[⟨1, "v1", 3, "u", "T", none, "best", 100, 5, "mp4", none, none,
          "videos/v1.mp4", none, 1000, 260200, 1000⟩], [], []⟩
        "v1").1.videos.length + 1 = 1 := by
  refine ⟨?_, ?_, ?_⟩
  · exact (C10_delete_video_semantics 50 _ "zzz").1 (by decide)
  · exact ((C10_delete_video_semantics 50 _ "v1").2 _
      (List.mem_singleton.mpr rfl) rfl (by decide)).1
  · exact ((C10_delete_video_semantics 50 _ "v1").2 _
      (List.mem_singleton.mpr rfl) rfl (by decide)).2.2.1

/-! ## C1: quota eviction reaches the 90% target -/

/-- The eviction loop exits either with projected usage at most the
target, or only after having deleted every listed row. -/
theorem Cleanup.cleanup_excess_deletions_exhausts (target : ℚ) :
    ∀ (used : ℚ) (fs : Fs) (l : List VideoRow),
      (Cleanup.cleanup_excess_deletions target used fs l).2 ≤ target ∨
      (Cleanup.cleanup_excess_deletions target used fs l).1 = l := by
  intro used fs l
  induction l generalizing used fs with
  | nil => right; rfl
  | cons v rest ih =>
      by_cases h : used ≤ target
      · left
        simp [Cleanup.cleanup_excess_deletions, h]
      · rcases ih (used - ((fs.lookup v.file_path).getD 0 : ℕ))
          (Cleanup.delete_video_files fs v.file_path v.thumbnail_path) with h2 | h2
        · left
          simpa [Cleanup.cleanup_excess_deletions, h] using h2
        · right
          simp [Cleanup.cleanup_excess_deletions, h, h2]

/-- Counterexample for C1 as stated ("for every starting storage
usage"): with usage 5 000 000 000 bytes and ceiling 5 GiB the pass
returns without deleting anything, so the remaining usage exceeds the
90% target and the catalog is not empty. -/
theorem C1_counterexample :
    ¬ ((Cleanup.cleanup_excess_storage 5368709120 underCeilingState).2 ≤
          5368709120 * (9 / 10) ∨
        ∀ r ∈ underCeilingState.videos,
          r ∈ (Cleanup.cleanup_excess_storage 5368709120 underCeilingState).1) := by
  have hc : Cleanup.cleanup_excess_storage 5368709120 underCeilingState =
      ([], 5000000000) := by
    norm_num [Cleanup.cleanup_excess_storage, Cleanup.get_total_storage_used,
      underCeilingState, scenarioVideo]
  intro hor
  rw [hc] at hor
  rcases hor with h | h
  · norm_num at h
  · have h2 := h (scenarioVideo 1 "a" "videos/a.mp4" 1)
      (by simp [underCeilingState])
    simp at h2

/-- C1 (amended): whenever the starting storage usage strictly exceeds
the configured ceiling, one quota-eviction pass ends with projected
remaining usage (initial usage minus the measured sizes of the deleted
video files) at most 90% of the ceiling, or with every artifact row
deleted from the catalog; in the 5 GiB / three-times-2-GiB scenario
exactly the oldest artifact is evicted, leaving 4 GiB. -/
theorem C1_eviction_reaches_target :
    (∀ (max_storage_bytes : ℚ) (st : Cleanup.State),
        max_storage_bytes < (Cleanup.get_total_storage_used st.fs : ℚ) →
        (Cleanup.cleanup_excess_storage max_storage_bytes st).2 ≤
            max_storage_bytes * (9 / 10) ∨
          ∀ r ∈ st.videos,
            r ∈ (Cleanup.cleanup_excess_storage max_storage_bytes st).1) ∧
    Cleanup.cleanup_excess_storage 5368709120 scenarioState =
      ([scenarioVideo 1 "a" "videos/a.mp4" 1], 4294967296) := by
  constructor
  · intro maxB st h
    have hgt : ¬ ((Cleanup.get_total_storage_used st.fs : ℚ) ≤ maxB) := not_le.mpr h
    by_cases he : (Cleanup.get_all_videos_sorted_by_age st.videos).isEmpty
    · right
      intro r hr
      have hsort : Cleanup.get_all_videos_sorted_by_age st.videos = [] :=
        List.isEmpty_iff.mp he
      have hp := List.perm_insertionSort
        (fun a b : VideoRow => a.download_timestamp ≤ b.download_timestamp) st.videos
      rw [Cleanup.get_all_videos_sorted_by_age] at hsort
      rw [hsort] at hp
      have hnil : st.videos = [] := hp.symm.eq_nil
      rw [hnil] at hr
      cases hr
    · have hcomp : Cleanup.cleanup_excess_storage maxB st =
          Cleanup.cleanup_excess_deletions (maxB * (9 / 10))
            ((Cleanup.get_total_storage_used st.fs : ℕ) : ℚ) st.fs
            (Cleanup.get_all_videos_sorted_by_age st.videos) := by
        simp [Cleanup.cleanup_excess_storage, hgt, he]
      rcases Cleanup.cleanup_excess_deletions_exhausts (maxB * (9 / 10))
        ((Cleanup.get_total_storage_used st.fs : ℕ) : ℚ) st.fs
        (Cleanup.get_all_videos_sorted_by_age st.videos) with h2 | h2
      · left
        rw [hcomp]
        exact h2
      · right
        intro r hr
        rw [hcomp, h2]
        exact ((List.perm_insertionSort
          (fun a b : VideoRow => a.download_timestamp ≤ b.download_timestamp)
          st.videos).mem_iff).mpr hr
  · norm_num [Cleanup.cleanup_excess_storage, Cleanup.get_total_storage_used,
      Cleanup.get_all_videos_sorted_by_age, List.insertionSort,
      List.orderedInsert, Cleanup.cleanup_excess_deletions,
      Cleanup.delete_video_files, Fs.lookup, Fs.remove, lookupPath,
      scenarioState, scenarioVideo, beq_iff_eq]

/-- Witness for C1 (amended) at the scenario state, whose usage of 6 GiB
exceeds the 5 GiB ceiling. -/
theorem C1_witness :
    (Cleanup.cleanup_excess_storage 5368709120 scenarioState).2 ≤
        5368709120 * (9 / 10) ∨
      ∀ r ∈ scenarioState.videos,
        r ∈ (Cleanup.cleanup_excess_storage 5368709120 scenarioState).1 :=
  C1_eviction_reaches_target.1 5368709120 scenarioState
    (by norm_num [Cleanup.get_total_storage_used, scenarioState])

/-! ## C2: the expiry sweep -/

/-- A row's own file paths are among the paths deleted for any list
containing it. -/
theorem Cleanup.mem_delPaths {v : VideoRow} :
    ∀ {del : List VideoRow}, v ∈ del →
      v.file_path ∈ Cleanup.delPaths del ∧
      ∀ t, v.thumbnail_path = some t → t ∈ Cleanup.delPaths del := by
  intro del
  induction del with
  | nil => intro h; cases h
  | cons w rest ih =>
      intro h
      rcases List.mem_cons.mp h with h | h
      · subst h
        refine ⟨List.mem_cons_self _ _, ?_⟩
        intro t ht
        apply List.mem_cons_of_mem
        apply List.mem_append_left
        simp [ht]
      · obtain ⟨h1, h2⟩ := ih h
        refine ⟨List.mem_cons_of_mem _ (List.mem_append_right _ h1), ?_⟩
        intro t ht
        exact List.mem_cons_of_mem _ (List.mem_append_right _ (h2 t ht))

/-- Unfolding the sweep over an explicit deletion list: under the table's
UNIQUE id constraint, sweeping a sublist `del` of the catalog removes
exactly the rows with ids in `del`, appends exactly one `delete` stat
entry per swept row (in order), and removes exactly the swept rows'
files. -/
theorem Cleanup.sweepDeletes_spec (now : ℤ) :
    ∀ (del : List VideoRow) (st : Cleanup.State),
      (st.videos.map (·.video_id)).Nodup → del.Sublist st.videos →
      (Cleanup.sweepDeletes now del st).videos =
        st.videos.filter
          (fun r => !(decide (r.video_id ∈ del.map (·.video_id)))) ∧
      (Cleanup.sweepDeletes now del st).stats =
        st.stats ++ del.map (Cleanup.deleteStatEntry now) ∧
      ∀ q, (Cleanup.sweepDeletes now del st).fs.lookup q =
        if q ∈ Cleanup.delPaths del then none else st.fs.lookup q := by
  intro del
  induction del with
  | nil =>
      intro st hnd hsub
      refine ⟨by simp [Cleanup.sweepDeletes], by simp [Cleanup.sweepDeletes], ?_⟩
      intro q
      simp [Cleanup.sweepDeletes, Cleanup.delPaths]
  | cons v rest ih =>
      intro st hnd hsub
      have hv : v ∈ st.videos := hsub.subset (List.mem_cons_self v rest)
      have hfind : st.videos.find? (fun w => w.video_id == v.video_id) = some v :=
        find?_video_id_eq hnd hv
      have hstep : Cleanup.sweepDeletes now (v :: rest) st =
          Cleanup.sweepDeletes now rest
            ⟨st.videos.filter (fun w => !(w.video_id == v.video_id)),
             st.stats ++ [Cleanup.deleteStatEntry now v],
             Cleanup.delete_video_files st.fs v.file_path v.thumbnail_path⟩ := by
        simp [Cleanup.sweepDeletes, Cleanup.delete_video, hfind,
          Cleanup.add_stat, Cleanup.deleteStatEntry]
      have hvids : ((v :: rest).map (·.video_id)).Nodup :=
        (hsub.map (·.video_id)).nodup hnd
      have hrest_ne : ∀ w ∈ rest, w.video_id ≠ v.video_id := by
        rw [List.map_cons] at hvids
        intro w hw he
        exact (List.nodup_cons.mp hvids).1 (he ▸ List.mem_map_of_mem _ hw)
      have hndrest :
          ((st.videos.filter (fun w => !(w.video_id == v.video_id))).map
            (·.video_id)).Nodup :=
        ((List.filter_sublist st.videos).map (·.video_id)).nodup hnd
      have hsubrest :
          rest.Sublist (st.videos.filter (fun w => !(w.video_id == v.video_id))) := by
        have h1 : rest.filter (fun w => !(w.video_id == v.video_id)) = rest :=
          List.filter_eq_self.mpr (fun a ha => by
            simp [beq_eq_false_iff_ne.mpr (hrest_ne a ha)])
        have h2 := List.Sublist.filter (fun w => !(w.video_id == v.video_id))
          ((List.sublist_cons_self v rest).trans hsub)
        rwa [h1] at h2
      obtain ⟨ihv, ihs, ihf⟩ := ih
        ⟨st.videos.filter (fun w => !(w.video_id == v.video_id)),
         st.stats ++ [Cleanup.deleteStatEntry now v],
         Cleanup.delete_video_files st.fs v.file_path v.thumbnail_path⟩
        hndrest hsubrest
      rw [hstep]
      refine ⟨?_, ?_, ?_⟩
      · rw [ihv, List.filter_filter]
        apply List.filter_congr
        intro r _
        by_cases h1 : r.video_id = v.video_id
        · simp [h1]
        · simp [h1, beq_eq_false_iff_ne.mpr h1]
      · rw [ihs]
        simp [Cleanup.deleteStatEntry]
      · intro q
        rw [ihf q]
        by_cases hq : q ∈ Cleanup.delPaths rest
        · rw [if_pos hq, if_pos]
          exact List.mem_cons_of_mem _ (List.mem_append_right _ hq)
        · rw [if_neg hq, Cleanup.delete_video_files_lookup]
          by_cases hq2 : q = v.file_path ∨ q ∈ v.thumbnail_path.toList
          · rw [if_pos hq2, if_pos]
            rcases hq2 with h | h
            · exact h ▸ List.mem_cons_self _ _
            · exact List.mem_cons_of_mem _ (List.mem_append_left _ h)
          · rw [if_neg hq2, if_neg]
            intro hc
            rcases List.mem_cons.mp hc with h | h
            · exact hq2 (Or.inl h)
            · rcases List.mem_append.mp h with h | h
              · exact hq2 (Or.inr h)
              · exact hq h

/-- C2: the expiry sweep touches exactly the artifacts whose
`delete_timestamp` is at or before the current time — it removes their
catalog rows (all other rows survive), appends exactly one `delete`
audit entry per expired artifact, and deletes each expired artifact's
video file and (when present) thumbnail file. -/
theorem C2_expiry_sweep (now : ℤ) (st : Cleanup.State)
    (hnd : (st.videos.map (·.video_id)).Nodup) :
    (Cleanup.cleanup_expired_videos now st).videos =
      st.videos.filter (fun r => decide (now < r.delete_timestamp)) ∧
    (Cleanup.cleanup_expired_videos now st).stats =
      st.stats ++ (Cleanup.get_expired_videos now st.videos).map
        (Cleanup.deleteStatEntry now) ∧
    (∀ v ∈ st.videos, v.delete_timestamp ≤ now →
      (Cleanup.cleanup_expired_videos now st).fs.lookup v.file_path = none ∧
      ∀ t, v.thumbnail_path = some t →
        (Cleanup.cleanup_expired_videos now st).fs.lookup t = none) := by
  have hsub : (Cleanup.get_expired_videos now st.videos).Sublist st.videos :=
    List.filter_sublist st.videos
  obtain ⟨hv, hs, hf⟩ :=
    Cleanup.sweepDeletes_spec now (Cleanup.get_expired_videos now st.videos)
      st hnd hsub
  have hunf : Cleanup.cleanup_expired_videos now st =
      Cleanup.sweepDeletes now (Cleanup.get_expired_videos now st.videos) st := rfl
  refine ⟨?_, ?_, ?_⟩
  · rw [hunf, hv]
    apply List.filter_congr
    intro r hr
    by_cases hexp : r.delete_timestamp ≤ now
    · have hrex : r ∈ Cleanup.get_expired_videos now st.videos := by
        simp [Cleanup.get_expired_videos, List.mem_filter, hr, hexp]
      have hm : r.video_id ∈
          (Cleanup.get_expired_videos now st.videos).map (·.video_id) :=
        List.mem_map_of_mem _ hrex
      simp [hm, not_lt.mpr hexp]
    · have hnot : r.video_id ∉
          (Cleanup.get_expired_videos now st.videos).map (·.video_id) := by
        intro hmem
        rcases List.mem_map.mp hmem with ⟨e, he, hev⟩
        have heSt : e ∈ st.videos := hsub.subset he
        have hee : e = r := List.inj_on_of_nodup_map hnd heSt hr hev
        have : e.delete_timestamp ≤ now := by
          have := (List.mem_filter.mp he).2
          simpa using this
        exact hexp (hee ▸ this)
      simp [hnot, not_le.mp hexp]
  · rw [hunf, hs]
  · intro v hv2 hexp
    have hvex : v ∈ Cleanup.get_expired_videos now st.videos := by
      simp [Cleanup.get_expired_videos, List.mem_filter, hv2, hexp]
    obtain ⟨h1, h2⟩ := Cleanup.mem_delPaths hvex
    constructor
    · rw [hunf, hf v.file_path, if_pos h1]
    · intro t ht
      rw [hunf, hf t, if_pos (h2 t ht)]

/-- Witness for C2 at a concrete catalog: at `now = 150` the artifact
expiring at 100 is swept (row, stat entry, and file), the one expiring
at 200 survives. -/
theorem C2_witness :
    (Cleanup.cleanup_expired_videos 150
      ⟨[⟨1, "a", 3, "u", "T", none, "best", 5, 1, "mp4", none, none, "fa",
          some "ta", 50, 100, 50⟩,
        ⟨2, "b", 4, "u", "U", none, "best", 6, 1, "mp4", none, none, "fb",
          none, 60, 200, 60⟩], [],
        [("fa", 5), ("ta", 1), ("fb", 6)]⟩).videos =
      [⟨1, "a", 3, "u", "T", none, "best", 5, 1, "mp4", none, none, "fa",
          some "ta", 50, 100, 50⟩,
        ⟨2, "b", 4, "u", "U", none, "best", 6, 1, "mp4", none, none, "fb",
          none, 60, 200, 60⟩].filter (fun r => decide (150 < r.delete_timestamp)) :=
  (C2_expiry_sweep 150
    ⟨[⟨1, "a", 3, "u", "T", none, "best", 5, 1, "mp4", none, none, "fa",
        some "ta", 50, 100, 50⟩,
      ⟨2, "b", 4, "u", "U", none, "best", 6, 1, "mp4", none, none, "fb",
        none, 60, 200, 60⟩], [],
      [("fa", 5), ("ta", 1), ("fb", 6)]⟩ (by decide)).1

/-! ## C3: deterministic oldest-first ordering -/

/-- Two distinct elements of a duplicate-free list cannot occur in both
orders as a two-element sublist. -/
theorem not_pair_sublist_swap {α : Type} :
    ∀ {l : List α}, l.Nodup → ∀ {a b : α}, a ≠ b →
      [a, b].Sublist l → [b, a].Sublist l → False := by
  intro l
  induction l with
  | nil =>
      intro _ a b _ h1 _
      simp at h1
  | cons x t ih =>
      intro hnd a b hne h1 h2
      obtain ⟨hx, ht⟩ := List.nodup_cons.mp hnd
      cases h1 with
      | cons _ h1' =>
          cases h2 with
          | cons _ h2' => exact ih ht hne h1' h2'
          | cons₂ _ h2' =>
              exact hx (h1'.subset (List.mem_cons_of_mem a (List.mem_singleton.mpr rfl)))
      | cons₂ _ h1' =>
          cases h2 with
          | cons _ h2' =>
              exact hx (h2'.subset (List.mem_cons_of_mem b (List.mem_singleton.mpr rfl)))
          | cons₂ _ h2' => exact hne rfl

/-- Two distinct members of a duplicate-free list occur as a two-element
sublist in one of the two orders. -/
theorem sublist_pair_of_mem {α : Type} :
    ∀ {l : List α}, l.Nodup → ∀ {a b : α}, a ∈ l → b ∈ l → a ≠ b →
      [a, b].Sublist l ∨ [b, a].Sublist l := by
  intro l
  induction l with
  | nil => intro _ a b ha; cases ha
  | cons x t ih =>
      intro hnd a b ha hb hne
      obtain ⟨_, ht⟩ := List.nodup_cons.mp hnd
      rcases List.mem_cons.mp ha with ha1 | ha1
      · rcases List.mem_cons.mp hb with hb1 | hb1
        · exact absurd (ha1.trans hb1.symm) hne
        · subst ha1
          exact Or.inl (List.Sublist.cons₂ a (List.singleton_sublist.mpr hb1))
      · rcases List.mem_cons.mp hb with hb1 | hb1
        · subst hb1
          exact Or.inr (List.Sublist.cons₂ b (List.singleton_sublist.mpr ha1))
        · exact (ih ht ha1 hb1 hne).imp (List.Sublist.cons x) (List.Sublist.cons x)

/-- Two permutations of the same multiset that are both sorted under an
asymmetric (strict) relation coincide. -/
theorem eq_of_perm_of_pairwise_strict {α : Type} {r : α → α → Prop}
    (hasym : ∀ a b, r a b → r b a → False) {l₁ l₂ : List α}
    (hp : l₁.Perm l₂) (h1 : l₁.Pairwise r) (h2 : l₂.Pairwise r) : l₁ = l₂ := by
  haveI : IsAntisymm α r := ⟨fun a b hab hba => (hasym a b hab hba).elim⟩
  exact List.eq_of_perm_of_sorted hp h1 h2

/-- C3: `get_all_videos_sorted_by_age` returns the catalog rows in
ingestion-time-ascending order; the result is a permutation of the
catalog; with pairwise-distinct ingestion timestamps the sorted sequence
is the unique one (so any two runs — indeed any implementation meeting
the ordering contract — produce the same deletion sequence); and rows
with identical timestamps come out ordered by their row id (the stable
deterministic tie-break), provided the table is scanned in row-id
order. -/
theorem C3_sorted_by_age_deterministic (videos : List VideoRow) :
    List.Sorted
      (fun a b : VideoRow => a.download_timestamp ≤ b.download_timestamp)
      (Cleanup.get_all_videos_sorted_by_age videos) ∧
    (Cleanup.get_all_videos_sorted_by_age videos).Perm videos ∧
    ((videos.map (·.download_timestamp)).Nodup →
      ∀ l : List VideoRow, l.Perm videos →
        List.Sorted
          (fun a b : VideoRow => a.download_timestamp ≤ b.download_timestamp) l →
        l = Cleanup.get_all_videos_sorted_by_age videos) ∧
    (videos.Pairwise (fun a b => a.id < b.id) →
      (Cleanup.get_all_videos_sorted_by_age videos).Pairwise
        (fun a b => a.download_timestamp < b.download_timestamp ∨
          (a.download_timestamp = b.download_timestamp ∧ a.id < b.id))) := by
  haveI hTot : IsTotal VideoRow
      (fun a b => a.download_timestamp ≤ b.download_timestamp) :=
    ⟨fun a b => le_total _ _⟩
  haveI hTrans : IsTrans VideoRow
      (fun a b => a.download_timestamp ≤ b.download_timestamp) :=
    ⟨fun _ _ _ => le_trans⟩
  have hsorted := List.sorted_insertionSort
    (fun a b : VideoRow => a.download_timestamp ≤ b.download_timestamp) videos
  have hperm := List.perm_insertionSort
    (fun a b : VideoRow => a.download_timestamp ≤ b.download_timestamp) videos
  refine ⟨hsorted, hperm, ?_, ?_⟩
  · intro hnd l hlp hlsort
    have hstrict : ∀ m : List VideoRow,
        (m.map (·.download_timestamp)).Nodup →
        List.Sorted
          (fun a b : VideoRow => a.download_timestamp ≤ b.download_timestamp) m →
        m.Pairwise
          (fun a b => a.download_timestamp < b.download_timestamp) := by
      intro m hmnd hmsort
      have hne : m.Pairwise
          (fun a b => a.download_timestamp ≠ b.download_timestamp) :=
        List.pairwise_map.mp hmnd
      exact (List.Pairwise.and hmsort hne).imp
        (fun h => lt_of_le_of_ne h.1 h.2)
    have hl : l.Pairwise (fun a b => a.download_timestamp < b.download_timestamp) :=
      hstrict l (((hlp.map (·.download_timestamp)).nodup_iff).mpr hnd) hlsort
    have hout : (Cleanup.get_all_videos_sorted_by_age videos).Pairwise
        (fun a b => a.download_timestamp < b.download_timestamp) :=
      hstrict _ (((hperm.map (·.download_timestamp)).nodup_iff).mpr hnd) hsorted
    exact eq_of_perm_of_pairwise_strict
      (fun a b h1 h2 => absurd h2 (not_lt.mpr (le_of_lt h1)))
      (hlp.trans hperm.symm) hl hout
  · intro hids
    have hnodup_videos : videos.Nodup :=
      hids.imp (fun h he => absurd (he ▸ h) (lt_irrefl _))
    have hnodup_out : (Cleanup.get_all_videos_sorted_by_age videos).Nodup :=
      (hperm.nodup_iff).mpr hnodup_videos
    rw [List.pairwise_iff_forall_sublist]
    intro a b hab
    have hts : a.download_timestamp ≤ b.download_timestamp :=
      (List.pairwise_iff_forall_sublist.mp hsorted) hab
    have hne : a ≠ b := (List.pairwise_iff_forall_sublist.mp hnodup_out) hab
    have hav : a ∈ videos :=
      hperm.subset (hab.subset (List.mem_cons_self a [b]))
    have hbv : b ∈ videos :=
      hperm.subset (hab.subset (List.mem_cons_of_mem a (List.mem_singleton.mpr rfl)))
    by_cases hlt : a.download_timestamp < b.download_timestamp
    · exact Or.inl hlt
    · have hts_eq : a.download_timestamp = b.download_timestamp :=
        le_antisymm hts (not_lt.mp hlt)
      refine Or.inr ⟨hts_eq, ?_⟩
      rcases sublist_pair_of_mem hnodup_videos hav hbv hne with h | h
      · exact (List.pairwise_iff_forall_sublist.mp hids) h
      · have hba : (fun a b : VideoRow =>
            a.download_timestamp ≤ b.download_timestamp) b a :=
          le_of_eq hts_eq.symm
        have h2 := @List.pair_sublist_insertionSort VideoRow
          (fun a b : VideoRow => a.download_timestamp ≤ b.download_timestamp)
          (by infer_instance) b a videos hba h
        exact (not_pair_sublist_swap hnodup_out hne hab h2).elim

/-- Witness for C3 at a concrete two-row catalog given in reverse
ingestion order: the unique sorted order and the id-tie-break property,
with all hypotheses discharged concretely. -/
theorem C3_witness :
    ([scenarioVideo 1 "a" "videos/a.mp4" 1, scenarioVideo 2 "b" "videos/b.mp4" 2] =
      Cleanup.get_all_videos_sorted_by_age
        [scenarioVideo 2 "b" "videos/b.mp4" 2,
         scenarioVideo 1 "a" "videos/a.mp4" 1]) ∧
    (Cleanup.get_all_videos_sorted_by_age
        [scenarioVideo 1 "a" "videos/a.mp4" 1,
         scenarioVideo 2 "b" "videos/b.mp4" 2]).Pairwise
      (fun a b => a.download_timestamp < b.download_timestamp ∨
        (a.download_timestamp = b.download_timestamp ∧ a.id < b.id)) :=
  ⟨(C3_sorted_by_age_deterministic
      [scenarioVideo 2 "b" "videos/b.mp4" 2,
       scenarioVideo 1 "a" "videos/a.mp4" 1]).2.2.1 (by decide)
    [scenarioVideo 1 "a" "videos/a.mp4" 1, scenarioVideo 2 "b" "videos/b.mp4" 2]
    (by decide) (by decide),
   (C3_sorted_by_age_deterministic
      [scenarioVideo 1 "a" "videos/a.mp4" 1,
       scenarioVideo 2 "b" "videos/b.mp4" 2]).2.2.2 (by decide)⟩
